import Mathlib

/-!
Verification development for the vocabulary-flashcard spaced-repetition engine.

The engine under study is `calculateNextReviewStats` in `src/js/data.js`
(the SRS transition function) together with the classification helpers
`calculateFamiliarity` and `getFamiliarityLevel` in `src/js/review.js`.

Embedding conventions:
* Timestamps are integers (milliseconds); `new Date()` inside one call of
  the engine is modelled as a single parameter `now`.  Adding `d` days to a
  date is modelled as adding `d * dayMs`.
* `success_streak` and `interval_days` are integer-valued per the data
  model; a possibly-absent field is an `Option`.
* Weighted counters (`total_attempts`, `correct_attempts`,
  `consecutive_correct`) and the `weight` argument are rationals, since
  mode weights are 0.5 / 1.0.
* `state` is a possibly-absent string, so legacy records (no `state`) and
  unknown strings are representable, exactly as in the JavaScript.
* `mode_stats` is a possibly-absent association list from mode keys to
  `{attempts, correct}` pairs; JavaScript objects have at most one entry
  per key, so updates rewrite every entry with the matching key.
-/

namespace VocabSRS

/-- One day in milliseconds, the unit used for `Date` arithmetic. -/
def dayMs : Int := 86400000

/-- Per-mode tally, the `{attempts, correct}` objects of `mode_stats`. -/
structure ModeStat where
  attempts : ℚ
  correct : ℚ
deriving Repr, DecidableEq

/-- The `review_stats` record persisted per card (see `INITIAL_STATS` in
`src/js/data.js`).  `Option` marks fields that may be absent/null. -/
structure Stats where
  state : Option String
  success_streak : Option Int
  interval_days : Option Int
  next_review_date : Option Int
  mastered_at : Option Int
  demotions : Option (List Int)
  total_attempts : ℚ
  correct_attempts : ℚ
  consecutive_correct : ℚ
  last_reviewed_at : Option Int
  last_wrong_at : Option Int
  mode_stats : Option (List (String × ModeStat))
deriving Repr, DecidableEq

/-- The default `mode_stats` map of `INITIAL_STATS()`. -/
def initialModeStats : List (String × ModeStat) :=
  [("flip_en", ⟨0, 0⟩), ("flip_zh", ⟨0, 0⟩), ("spelling", ⟨0, 0⟩), ("fill_blank", ⟨0, 0⟩)]

/-- `INITIAL_STATS()` from `src/js/data.js`. -/
def INITIAL_STATS : Stats where
  state := some "NEW"
  success_streak := some 0
  interval_days := some 0
  next_review_date := none
  mastered_at := none
  demotions := some []
  total_attempts := 0
  correct_attempts := 0
  consecutive_correct := 0
  last_reviewed_at := none
  last_wrong_at := none
  mode_stats := some initialModeStats

/-- The fixed interval ladder `INTERVAL_STEPS = [0, 1, 3, 7, 14, 30]`. -/
def INTERVAL_STEPS : List Int := [0, 1, 3, 7, 14, 30]

/-- JavaScript `x || 0` on a possibly-absent number (0 is falsy, so an
absent value and 0 both yield 0). -/
def orZero : Option Int → Int
  | none => 0
  | some x => x

/-- The due check of `calculateNextReviewStats`: `isDue` starts `true` and
becomes `false` exactly when `next_review_date` is present and strictly
after `now` (`if (nextDate > now) isDue = false`). -/
def isDueAt (now : Int) (next : Option Int) : Bool :=
  match next with
  | none => true
  | some nd => if nd > now then false else true

/-- `INTERVAL_STEPS.indexOf(x)` followed by the `if (idx === -1) idx = 0`
self-healing step: the position of `x` on the ladder, or 0 if absent. -/
def ladderIndex (x : Int) : Nat :=
  match INTERVAL_STEPS.findIdx? (fun y => y == x) with
  | some i => i
  | none => 0

/-- Bump `mode_stats[key].attempts` by one (JavaScript object update:
every entry with the matching key — at most one — is rewritten). -/
def bumpAttempts (ms : List (String × ModeStat)) (key : String) : List (String × ModeStat) :=
  ms.map (fun p => if p.1 = key then (p.1, { p.2 with attempts := p.2.attempts + 1 }) else p)

/-- Bump `mode_stats[key].correct` by one. -/
def bumpCorrect (ms : List (String × ModeStat)) (key : String) : List (String × ModeStat) :=
  ms.map (fun p => if p.1 = key then (p.1, { p.2 with correct := p.2.correct + 1 }) else p)

/-- `stats.mode_stats[modeKey]` lookup (objects are truthy, so the guard
`if (stats.mode_stats[modeKey])` is "an entry exists"). -/
def lookupMode (ms : List (String × ModeStat)) (key : String) : Option (String × ModeStat) :=
  ms.find? (fun p => p.1 == key)

/-- The PASS branch of the due-gated schedule update (lines 82–107 of
`src/js/data.js`): increment the streak, advance the interval one rung up
the ladder (clamped at the top), then run the MASTERED promotion check,
else promote NEW to LEARNING. -/
def applyPass (now : Int) (s : Stats) : Stats :=
  let streak := orZero s.success_streak + 1
  let nextStepIndex := min (ladderIndex (orZero s.interval_days) + 1) (INTERVAL_STEPS.length - 1)
  let newInterval := INTERVAL_STEPS.getD nextStepIndex 0
  let s1 := { s with success_streak := some streak, interval_days := some newInterval }
  if streak ≥ 3 ∧ newInterval ≥ 14 then
    let s2 := if s1.state ≠ some "MASTERED" then { s1 with mastered_at := some now } else s1
    { s2 with state := some "MASTERED" }
  else if s1.state = some "NEW" then { s1 with state := some "LEARNING" }
  else s1

/-- The FAIL branch of the due-gated schedule update (lines 108–123 of
`src/js/data.js`): MASTERED logs a demotion and becomes LEARNING, NEW is
(re)assigned NEW, everything else becomes LEARNING; then the streak is
reset to 0 and the interval to 1. -/
def applyFail (now : Int) (s : Stats) : Stats :=
  let s1 :=
    if s.state = some "MASTERED" then
      { s with demotions := some (s.demotions.getD [] ++ [now]), state := some "LEARNING" }
    else if s.state = some "NEW" then
      { s with state := some "NEW" }
    else
      { s with state := some "LEARNING" }
  { s1 with success_streak := some 0, interval_days := some 1 }

/-- The whole due-gated schedule update: PASS or FAIL rule, then
`next_review_date = now + interval_days` (using the new interval). -/
def applySchedule (now : Int) (isCorrect : Bool) (s : Stats) : Stats :=
  let s1 := if isCorrect then applyPass now s else applyFail now s
  { s1 with next_review_date := some (now + orZero s1.interval_days * dayMs) }

/-- The unconditional bookkeeping of lines 132–145 of `src/js/data.js`:
`total_attempts += weight`, bump the mode's `attempts` when the entry
exists, stamp `last_reviewed_at`; on PASS also `correct_attempts +=
weight`, `consecutive_correct += 1` and bump the mode's `correct`; on FAIL
reset `consecutive_correct` and stamp `last_wrong_at`. -/
def applyBookkeeping (now : Int) (modeKey : String) (isCorrect : Bool) (weight : ℚ)
    (s : Stats) : Stats :=
  let ms := s.mode_stats.getD initialModeStats
  let ms1 := if (lookupMode ms modeKey).isSome then bumpAttempts ms modeKey else ms
  let s1 := { s with
    total_attempts := s.total_attempts + weight
    mode_stats := some ms1
    last_reviewed_at := some now }
  if isCorrect then
    let ms2 := if (lookupMode ms1 modeKey).isSome then bumpCorrect ms1 modeKey else ms1
    { s1 with
      correct_attempts := s1.correct_attempts + weight
      consecutive_correct := s1.consecutive_correct + 1
      mode_stats := some ms2 }
  else
    { s1 with consecutive_correct := 0, last_wrong_at := some now }

/-- `calculateNextReviewStats(currentStats, modeKey, isCorrect, weight)`
from `src/js/data.js`, with the call-time clock `now` made explicit.
Absent `currentStats` falls back to `INITIAL_STATS()`; an absent
`mode_stats` is replaced by the initial map; the schedule update runs only
when the card is due; the usage bookkeeping always runs. -/
def calculateNextReviewStats (now : Int) (currentStats : Option Stats)
    (modeKey : String) (isCorrect : Bool) (weight : ℚ) : Stats :=
  let stats := currentStats.getD INITIAL_STATS
  let stats := { stats with mode_stats := some (stats.mode_stats.getD initialModeStats) }
  let stats := if isDueAt now stats.next_review_date then applySchedule now isCorrect stats else stats
  applyBookkeeping now modeKey isCorrect weight stats

/-- Net effect of `calculateNextReviewStats` on the `mode_stats` map: bump
`attempts` when the key has an entry, and on a correct answer also bump
`correct` (the second guard re-reads the map after the first update, as the
source does). -/
def modeUpdate (isCorrect : Bool) (key : String)
    (ms : List (String × ModeStat)) : List (String × ModeStat) :=
  let ms1 := if (lookupMode ms key).isSome then bumpAttempts ms key else ms
  if isCorrect then
    if (lookupMode ms1 key).isSome then bumpCorrect ms1 key else ms1
  else ms1

/-- UI familiarity labels returned by `getFamiliarityLevel`. -/
inductive Level where
  | New
  | Learning
  | Mastered
deriving Repr, DecidableEq

/-- `calculateFamiliarity(stats)` from `src/js/review.js`: known states map
to fixed scores; otherwise the legacy accuracy-plus-streak score. -/
def calculateFamiliarity (stats : Option Stats) : ℚ :=
  match stats with
  | none => 0
  | some s =>
    if s.state = some "MASTERED" then 1
    else if s.state = some "LEARNING" then 1/2
    else if s.state = some "NEW" then 1/10
    else if s.total_attempts = 0 then 0
    else
      let accuracy := s.correct_attempts / max s.total_attempts 1
      let streakBonus := min (s.consecutive_correct * (1/10)) (3/10)
      max 0 (min 1 (accuracy + streakBonus))

/-- Bucketing of the fallback score at 0.75 / 0.4 in `getFamiliarityLevel`. -/
def levelOfScore (score : ℚ) : Level :=
  if score ≥ 3/4 then Level.Mastered
  else if score ≥ 2/5 then Level.Learning
  else Level.New

/-- JavaScript truthiness of `stats.state` (absent and the empty string
are falsy). -/
def stateTruthy : Option String → Bool
  | none => false
  | some st => !(st == "")

/-- `getFamiliarityLevel(stats)` from `src/js/review.js`: a truthy `state`
matching one of the three known labels wins; any other record (absent
state, empty state, unknown string) falls through to the score buckets. -/
def getFamiliarityLevel (stats : Option Stats) : Level :=
  match stats with
  | none => levelOfScore (calculateFamiliarity none)
  | some s =>
    if stateTruthy s.state then
      if s.state = some "MASTERED" then Level.Mastered
      else if s.state = some "LEARNING" then Level.Learning
      else if s.state = some "NEW" then Level.New
      else levelOfScore (calculateFamiliarity (some s))
    else levelOfScore (calculateFamiliarity (some s))

/-- The ladder position as the spec words it, for comparison with the
code's `indexOf`-plus-fixup: the index of the input `interval_days` on
`[0, 1, 3, 7, 14, 30]`, taken as 0 when the value is absent or not one of
the six ladder values. -/
def specLadderPos (v : Option Int) : Nat :=
  match v with
  | none => 0
  | some x =>
    match INTERVAL_STEPS.findIdx? (fun y => y == x) with
    | some i => i
    | none => 0

/-- Calendar-day index of a timestamp, the spec's notion of day alignment
(floor division by the day length). -/
def calendarDay (t : Int) : Int := Int.ediv t dayMs

/-- Start of the calendar day a timestamp falls on. -/
def startOfDay (t : Int) : Int := calendarDay t * dayMs

/-- A scheduled card that is not yet due at time 0. -/
def sampleNotDue : Stats := { INITIAL_STATS with next_review_date := some 10 }

/-- A legacy record: no `state` field, classified by the accuracy fallback;
scheduled, not yet due at time 0. -/
def sampleLegacy : Stats :=
  { INITIAL_STATS with
    state := none, total_attempts := 1, correct_attempts := 0,
    consecutive_correct := 0, next_review_date := some 5 }

/-- A LEARNING card that is scheduled but not yet due at time 0. -/
def sampleKnownState : Stats :=
  { INITIAL_STATS with state := some "LEARNING", next_review_date := some 10 }

/-- A MASTERED card, due at time 0, with one earlier demotion on record. -/
def sampleMastered : Stats :=
  { INITIAL_STATS with
    state := some "MASTERED", success_streak := some 4, interval_days := some 30,
    mastered_at := some 99, demotions := some [7] }

/-- A LEARNING card one due PASS away from the mastery bar
(streak 2 → 3, interval 7 → 14). -/
def sampleNearMastery : Stats :=
  { INITIAL_STATS with
    state := some "LEARNING", success_streak := some 2, interval_days := some 7 }

/-- A record with a corrupt, off-ladder `interval_days` of 5. -/
def sampleOffLadder : Stats := { INITIAL_STATS with interval_days := some 5 }

/-- A record at the top of the ladder (`interval_days = 30`). -/
def sampleCeiling : Stats :=
  { INITIAL_STATS with state := some "LEARNING", interval_days := some 30 }

/-- A record whose `mode_stats` map covers only one mode key. -/
def sampleSparseModes : Stats :=
  { INITIAL_STATS with mode_stats := some [("flip_en", ⟨2, 1⟩)] }

theorem applyPass_eq (now : Int) (s : Stats) :
    applyPass now s =
      (let streak := orZero s.success_streak + 1
      let newInterval := INTERVAL_STEPS.getD (min (ladderIndex (orZero s.interval_days) + 1) 5) 0
      if streak ≥ 3 ∧ newInterval ≥ 14 then
        { s with success_streak := some streak, interval_days := some newInterval,
                 state := some "MASTERED",
                 mastered_at := if s.state = some "MASTERED" then s.mastered_at else some now }
      else
        { s with success_streak := some streak, interval_days := some newInterval,
                 state := if s.state = some "NEW" then some "LEARNING" else s.state }) := by
  show applyPass now s = _
  unfold applyPass
  simp only [INTERVAL_STEPS, List.length_cons, List.length_nil]
  split_ifs <;> simp_all

theorem applyFail_eq (now : Int) (s : Stats) :
    applyFail now s =
      if s.state = some "MASTERED" then
        { s with demotions := some (s.demotions.getD [] ++ [now]), state := some "LEARNING",
                 success_streak := some 0, interval_days := some 1 }
      else if s.state = some "NEW" then
        { s with state := some "NEW", success_streak := some 0, interval_days := some 1 }
      else
        { s with state := some "LEARNING", success_streak := some 0, interval_days := some 1 } := by
  unfold applyFail
  split_ifs <;> rfl

theorem applyBookkeeping_eq (now : Int) (k : String) (c : Bool) (w : ℚ) (s : Stats) :
    applyBookkeeping now k c w s =
      if c then
        { s with total_attempts := s.total_attempts + w,
                 mode_stats := some (modeUpdate true k (s.mode_stats.getD initialModeStats)),
                 last_reviewed_at := some now,
                 correct_attempts := s.correct_attempts + w,
                 consecutive_correct := s.consecutive_correct + 1 }
      else
        { s with total_attempts := s.total_attempts + w,
                 mode_stats := some (modeUpdate false k (s.mode_stats.getD initialModeStats)),
                 last_reviewed_at := some now,
                 consecutive_correct := 0, last_wrong_at := some now } := by
  unfold applyBookkeeping modeUpdate
  cases c <;> simp

theorem applyBookkeeping_frame (now : Int) (k : String) (c : Bool) (w : ℚ) (s : Stats) :
    (applyBookkeeping now k c w s).state = s.state ∧
    (applyBookkeeping now k c w s).success_streak = s.success_streak ∧
    (applyBookkeeping now k c w s).interval_days = s.interval_days ∧
    (applyBookkeeping now k c w s).next_review_date = s.next_review_date ∧
    (applyBookkeeping now k c w s).mastered_at = s.mastered_at ∧
    (applyBookkeeping now k c w s).demotions = s.demotions := by
  unfold applyBookkeeping
  cases c <;> simp

theorem applySchedule_frame (now : Int) (c : Bool) (s : Stats) :
    (applySchedule now c s).mode_stats = s.mode_stats ∧
    (applySchedule now c s).total_attempts = s.total_attempts ∧
    (applySchedule now c s).correct_attempts = s.correct_attempts ∧
    (applySchedule now c s).consecutive_correct = s.consecutive_correct ∧
    (applySchedule now c s).last_reviewed_at = s.last_reviewed_at ∧
    (applySchedule now c s).last_wrong_at = s.last_wrong_at ∧
    (applySchedule now c s).mastered_at = (if c then applyPass now s else applyFail now s).mastered_at := by
  unfold applySchedule
  cases c <;> simp [applyPass_eq, applyFail_eq] <;> split_ifs <;> simp

theorem advance_due (now : Int) (s : Stats) (k : String) (c : Bool) (w : ℚ)
    (h : isDueAt now s.next_review_date = true) :
    calculateNextReviewStats now (some s) k c w =
      applyBookkeeping now k c w
        (applySchedule now c { s with mode_stats := some (s.mode_stats.getD initialModeStats) }) := by
  unfold calculateNextReviewStats
  simp [h]

theorem advance_notDue (now : Int) (s : Stats) (k : String) (c : Bool) (w : ℚ)
    (h : isDueAt now s.next_review_date = false) :
    calculateNextReviewStats now (some s) k c w =
      applyBookkeeping now k c w { s with mode_stats := some (s.mode_stats.getD initialModeStats) } := by
  unfold calculateNextReviewStats
  simp [h]

theorem ladder_getD_mem (n : Nat) : INTERVAL_STEPS.getD (min n 5) 0 ∈ INTERVAL_STEPS := by
  have h : min n 5 = 0 ∨ min n 5 = 1 ∨ min n 5 = 2 ∨ min n 5 = 3 ∨ min n 5 = 4 ∨ min n 5 = 5 := by
    omega
  rcases h with h | h | h | h | h | h <;> rw [h] <;> decide

theorem ladderIndex_orZero_eq_specLadderPos (v : Option Int) :
    ladderIndex (orZero v) = specLadderPos v := by
  cases v with
  | none => rfl
  | some x => rfl

theorem level_of_known_state (s t : Stats) (h : t.state = s.state)
    (hk : s.state = some "NEW" ∨ s.state = some "LEARNING" ∨ s.state = some "MASTERED") :
    getFamiliarityLevel (some s) = getFamiliarityLevel (some t) := by
  rcases hk with h1 | h1 | h1 <;>
    rw [h1] at h <;>
    simp [getFamiliarityLevel, stateTruthy, h1, h]


theorem applySchedule_proj (now : Int) (c : Bool) (s : Stats) :
    (applySchedule now c s).state = (if c then applyPass now s else applyFail now s).state ∧
    (applySchedule now c s).success_streak = (if c then applyPass now s else applyFail now s).success_streak ∧
    (applySchedule now c s).interval_days = (if c then applyPass now s else applyFail now s).interval_days ∧
    (applySchedule now c s).mastered_at = (if c then applyPass now s else applyFail now s).mastered_at ∧
    (applySchedule now c s).demotions = (if c then applyPass now s else applyFail now s).demotions ∧
    (applySchedule now c s).next_review_date =
      some (now + orZero (if c then applyPass now s else applyFail now s).interval_days * dayMs) := by
  unfold applySchedule
  simp

theorem applyPass_eq2 (now : Int) (s : Stats) :
    applyPass now s =
      (if orZero s.success_streak + 1 ≥ 3 ∧
          INTERVAL_STEPS.getD (min (ladderIndex (orZero s.interval_days) + 1) 5) 0 ≥ 14 then
        { s with success_streak := some (orZero s.success_streak + 1),
                 interval_days :=
                   some (INTERVAL_STEPS.getD (min (ladderIndex (orZero s.interval_days) + 1) 5) 0),
                 state := some "MASTERED",
                 mastered_at := if s.state = some "MASTERED" then s.mastered_at else some now }
      else
        { s with success_streak := some (orZero s.success_streak + 1),
                 interval_days :=
                   some (INTERVAL_STEPS.getD (min (ladderIndex (orZero s.interval_days) + 1) 5) 0),
                 state := if s.state = some "NEW" then some "LEARNING" else s.state }) := by
  unfold applyPass
  simp only [INTERVAL_STEPS, List.length_cons, List.length_nil]
  split_ifs <;> simp_all

theorem applyPass_interval (now : Int) (s : Stats) :
    (applyPass now s).interval_days =
      some (INTERVAL_STEPS.getD (min (ladderIndex (orZero s.interval_days) + 1) 5) 0) := by
  rw [applyPass_eq2]
  split_ifs <;> rfl

theorem applyPass_streak (now : Int) (s : Stats) :
    (applyPass now s).success_streak = some (orZero s.success_streak + 1) := by
  rw [applyPass_eq2]
  split_ifs <;> rfl

theorem applyPass_promotes (now : Int) (s : Stats)
    (hstreak : orZero s.success_streak + 1 ≥ 3)
    (hint : INTERVAL_STEPS.getD (min (ladderIndex (orZero s.interval_days) + 1) 5) 0 ≥ 14) :
    (applyPass now s).state = some "MASTERED" ∧
    (applyPass now s).mastered_at =
      (if s.state = some "MASTERED" then s.mastered_at else some now) := by
  rw [applyPass_eq2]
  rw [if_pos ⟨hstreak, hint⟩]
  exact ⟨rfl, rfl⟩

theorem applyPass_no_promotion (now : Int) (s : Stats)
    (h : ¬(orZero s.success_streak + 1 ≥ 3 ∧
           INTERVAL_STEPS.getD (min (ladderIndex (orZero s.interval_days) + 1) 5) 0 ≥ 14)) :
    (applyPass now s).state = (if s.state = some "NEW" then some "LEARNING" else s.state) ∧
    (applyPass now s).mastered_at = s.mastered_at := by
  rw [applyPass_eq2]
  rw [if_neg h]
  exact ⟨rfl, rfl⟩

theorem applyFail_fields (now : Int) (s : Stats) :
    (applyFail now s).success_streak = some 0 ∧
    (applyFail now s).interval_days = some 1 ∧
    (applyFail now s).mastered_at = s.mastered_at ∧
    (applyFail now s).state =
      (if s.state = some "MASTERED" then some "LEARNING"
       else if s.state = some "NEW" then some "NEW" else some "LEARNING") ∧
    (applyFail now s).demotions =
      (if s.state = some "MASTERED" then some (s.demotions.getD [] ++ [now]) else s.demotions) := by
  rw [applyFail_eq]
  split_ifs <;> exact ⟨rfl, rfl, rfl, rfl, rfl⟩

theorem modeUpdate_of_lookup_none (c : Bool) (k : String) (ms : List (String × ModeStat))
    (h : lookupMode ms k = none) :
    modeUpdate c k ms = ms := by
  unfold modeUpdate
  cases c <;> simp [h]

/-- Claim C1 (code_bug): the spec — and the repository's own SRS design
document, whose FAIL rule is the unconditional `state = LEARNING` — says a
due FAIL always yields LEARNING, but the engine's FAIL branch explicitly
keeps a NEW card in state NEW: a due FAIL on a fresh NEW card (due because
it has no `next_review_date`) returns state NEW, not LEARNING. -/
theorem fail_on_new_card_stays_new :
    INITIAL_STATS.state = some "NEW" ∧
    INITIAL_STATS.next_review_date = none ∧
    (calculateNextReviewStats 0 (some INITIAL_STATS) "spelling" false 1).state = some "NEW" ∧
    (calculateNextReviewStats 0 (some INITIAL_STATS) "spelling" false 1).state ≠ some "LEARNING" := by
  refine ⟨rfl, rfl, rfl, by decide⟩

/-- Claim C2 (confirmed): a review of a card that is not yet due (cramming)
leaves `state`, `success_streak`, `interval_days` and `next_review_date`
unchanged, while the usage statistics are still updated by outcome and
weight: `total_attempts` grows by the weight, `last_reviewed_at` is
stamped, the mode entry is bumped when present, and the PASS/FAIL-specific
counters follow the outcome. -/
theorem cramming_preserves_schedule (now nd : Int) (s : Stats) (k : String) (c : Bool) (w : ℚ)
    (hnd : s.next_review_date = some nd) (hlt : now < nd) :
    ((calculateNextReviewStats now (some s) k c w).state = s.state ∧
     (calculateNextReviewStats now (some s) k c w).success_streak = s.success_streak ∧
     (calculateNextReviewStats now (some s) k c w).interval_days = s.interval_days ∧
     (calculateNextReviewStats now (some s) k c w).next_review_date = s.next_review_date) ∧
    ((calculateNextReviewStats now (some s) k c w).total_attempts = s.total_attempts + w ∧
     (calculateNextReviewStats now (some s) k c w).last_reviewed_at = some now ∧
     (calculateNextReviewStats now (some s) k c w).mode_stats =
       some (modeUpdate c k (s.mode_stats.getD initialModeStats))) ∧
    (c = true →
      (calculateNextReviewStats now (some s) k c w).correct_attempts = s.correct_attempts + w ∧
      (calculateNextReviewStats now (some s) k c w).consecutive_correct = s.consecutive_correct + 1 ∧
      (calculateNextReviewStats now (some s) k c w).last_wrong_at = s.last_wrong_at) ∧
    (c = false →
      (calculateNextReviewStats now (some s) k c w).correct_attempts = s.correct_attempts ∧
      (calculateNextReviewStats now (some s) k c w).consecutive_correct = 0 ∧
      (calculateNextReviewStats now (some s) k c w).last_wrong_at = some now) := by
  have hdue : isDueAt now s.next_review_date = false := by
    rw [hnd]
    show (if nd > now then false else true) = false
    rw [if_pos hlt]
  rw [advance_notDue now s k c w hdue, applyBookkeeping_eq]
  cases c <;> simp

theorem cramming_preserves_schedule_witness :
    sampleNotDue.next_review_date = some 10 ∧ (0 : Int) < 10 ∧
    (calculateNextReviewStats 0 (some sampleNotDue) "spelling" true 1).state = sampleNotDue.state ∧
    (calculateNextReviewStats 0 (some sampleNotDue) "spelling" true 1).total_attempts =
      sampleNotDue.total_attempts + 1 :=
  ⟨rfl, by decide,
   (cramming_preserves_schedule 0 10 sampleNotDue "spelling" true 1 rfl (by decide)).1.1,
   (cramming_preserves_schedule 0 10 sampleNotDue "spelling" true 1 rfl (by decide)).2.1.1⟩


/-- Claim C3 (counterexample): the engine's due flag does not depend only
on calendar alignment. With `next_review_date = 100` (calendar day 0), at
`now = 50` the current moment is at/after the start of that calendar day,
yet the engine says not due — while at `now = 150`, a moment of the very
same calendar day, it says due; accordingly a PASS review at `now = 50`
leaves the schedule untouched. -/
theorem due_check_calendar_counterexample :
    calendarDay 50 = calendarDay 150 ∧
    startOfDay 100 ≤ 50 ∧
    isDueAt 50 (some 100) = false ∧
    isDueAt 150 (some 100) = true ∧
    (calculateNextReviewStats 50 (some { INITIAL_STATS with next_review_date := some 100 })
        "spelling" true 1).next_review_date = some 100 :=
  ⟨by decide, by decide, by decide, by decide, rfl⟩

/-- Claim C3 (amended): the engine's internally computed due flag is the
exact timestamp comparison — a scheduled card is due exactly when
`next_review_date ≤ now`, so the time of day stored in `next_review_date`
does matter. -/
theorem due_is_exact_timestamp_comparison (now nd : Int) :
    isDueAt now (some nd) = decide (nd ≤ now) := by
  show (if nd > now then false else true) = decide (nd ≤ now)
  by_cases h : nd > now
  · rw [if_pos h, eq_comm, decide_eq_false_iff_not]
    omega
  · rw [if_neg h, eq_comm, decide_eq_true_eq]
    omega

/-- Claim C4 (counterexample): classifying before and after a non-due
review is not label-preserving on legacy records. `sampleLegacy` has no
`state` field, one failed attempt (score 0, label New) and is not due at
time 0; after a non-due PASS of weight 1 the fallback score becomes
1/2 + 1/10 = 3/5, so the label changes to Learning. -/
theorem classify_roundtrip_counterexample :
    sampleLegacy.state = none ∧
    sampleLegacy.next_review_date = some 5 ∧ (0 : Int) < 5 ∧
    getFamiliarityLevel (some sampleLegacy) = Level.New ∧
    getFamiliarityLevel
      (some (calculateNextReviewStats 0 (some sampleLegacy) "spelling" true 1)) =
      Level.Learning := by
  refine ⟨rfl, rfl, by decide, ?_, ?_⟩
  · simp [getFamiliarityLevel, stateTruthy, calculateFamiliarity, levelOfScore, sampleLegacy,
      INITIAL_STATS]
    norm_num
  · norm_num [getFamiliarityLevel, stateTruthy, calculateFamiliarity, levelOfScore,
      calculateNextReviewStats, applyBookkeeping, isDueAt, sampleLegacy, INITIAL_STATS,
      lookupMode, initialModeStats]
    simp only [reduceCtorEq, if_false]
    norm_num

/-- Claim C4 (amended): the round-trip does hold for every record whose
`state` field is one of the three known labels NEW / LEARNING / MASTERED:
a non-due review leaves the state untouched, and for those records the
label is computed from the state alone.  (For legacy records the fallback
score reads the attempt counters, which a non-due review updates, so the
label can change — see the counterexample.) -/
theorem classify_roundtrip_known_state (now nd : Int) (s : Stats) (k : String) (c : Bool) (w : ℚ)
    (hnd : s.next_review_date = some nd) (hlt : now < nd)
    (hk : s.state = some "NEW" ∨ s.state = some "LEARNING" ∨ s.state = some "MASTERED") :
    getFamiliarityLevel (some (calculateNextReviewStats now (some s) k c w)) =
      getFamiliarityLevel (some s) := by
  have hdue : isDueAt now s.next_review_date = false := by
    rw [hnd]
    show (if nd > now then false else true) = false
    rw [if_pos hlt]
  have hstate : (calculateNextReviewStats now (some s) k c w).state = s.state := by
    rw [advance_notDue now s k c w hdue]
    have h := (applyBookkeeping_frame now k c w
      { s with mode_stats := some (s.mode_stats.getD initialModeStats) }).1
    simpa using h
  exact (level_of_known_state s _ hstate hk).symm

theorem classify_roundtrip_known_state_witness :
    sampleKnownState.next_review_date = some 10 ∧ (0 : Int) < 10 ∧
    sampleKnownState.state = some "LEARNING" ∧
    getFamiliarityLevel
      (some (calculateNextReviewStats 0 (some sampleKnownState) "flip_en" false (1/2))) =
      getFamiliarityLevel (some sampleKnownState) :=
  ⟨rfl, by decide, rfl,
   classify_roundtrip_known_state 0 10 sampleKnownState "flip_en" false (1/2) rfl (by decide)
     (Or.inr (Or.inl rfl))⟩


/-- Claim C5 (confirmed): on a due PASS, if the incremented streak is ≥ 3
and the advanced interval is ≥ 14, the returned state is MASTERED, and
`mastered_at` is stamped with the current time exactly when the prior
state was not already MASTERED — a PASS while already MASTERED leaves
`mastered_at` unchanged. -/
theorem pass_promotion_to_mastered (now : Int) (s : Stats) (k : String) (w : ℚ)
    (hdue : isDueAt now s.next_review_date = true)
    (hstreak : orZero s.success_streak + 1 ≥ 3)
    (hint : INTERVAL_STEPS.getD (min (ladderIndex (orZero s.interval_days) + 1) 5) 0 ≥ 14) :
    (calculateNextReviewStats now (some s) k true w).state = some "MASTERED" ∧
    (calculateNextReviewStats now (some s) k true w).mastered_at =
      (if s.state = some "MASTERED" then s.mastered_at else some now) := by
  rw [advance_due now s k true w hdue]
  obtain ⟨hb1, _, _, _, hb5, _⟩ := applyBookkeeping_frame now k true w
    (applySchedule now true { s with mode_stats := some (s.mode_stats.getD initialModeStats) })
  rw [hb1, hb5]
  obtain ⟨hs1, _, _, hs4, _, _⟩ := applySchedule_proj now true
    { s with mode_stats := some (s.mode_stats.getD initialModeStats) }
  rw [hs1, hs4]
  simp only [if_true]
  obtain ⟨hp1, hp2⟩ := applyPass_promotes now
    { s with mode_stats := some (s.mode_stats.getD initialModeStats) } hstreak hint
  rw [hp1, hp2]
  exact ⟨rfl, rfl⟩

theorem pass_promotion_to_mastered_witness :
    isDueAt 0 sampleNearMastery.next_review_date = true ∧
    orZero sampleNearMastery.success_streak + 1 ≥ 3 ∧
    INTERVAL_STEPS.getD (min (ladderIndex (orZero sampleNearMastery.interval_days) + 1) 5) 0 ≥ 14 ∧
    (calculateNextReviewStats 0 (some sampleNearMastery) "spelling" true 1).state = some "MASTERED" ∧
    (calculateNextReviewStats 0 (some sampleNearMastery) "spelling" true 1).mastered_at = some 0 := by
  have h := pass_promotion_to_mastered 0 sampleNearMastery "spelling" 1
    (by decide) (by decide) (by decide)
  exact ⟨by decide, by decide, by decide, h.1, by rw [h.2]; decide⟩

/-- Claim C6 (confirmed): a MASTERED card receiving a due FAIL comes back
as LEARNING with `success_streak = 0`, `interval_days = 1`, its
`demotions` list extended by exactly the new timestamp at the end (earlier
entries untouched), and `next_review_date = now + 1 day`. -/
theorem mastered_due_fail_demotes (now : Int) (s : Stats) (k : String) (w : ℚ)
    (hdue : isDueAt now s.next_review_date = true)
    (hst : s.state = some "MASTERED") :
    (calculateNextReviewStats now (some s) k false w).state = some "LEARNING" ∧
    (calculateNextReviewStats now (some s) k false w).success_streak = some 0 ∧
    (calculateNextReviewStats now (some s) k false w).interval_days = some 1 ∧
    (calculateNextReviewStats now (some s) k false w).demotions =
      some (s.demotions.getD [] ++ [now]) ∧
    (((calculateNextReviewStats now (some s) k false w).demotions.getD []).length =
      (s.demotions.getD []).length + 1) ∧
    (calculateNextReviewStats now (some s) k false w).next_review_date = some (now + dayMs) := by
  rw [advance_due now s k false w hdue]
  obtain ⟨hb1, hb2, hb3, hb4, _, hb6⟩ := applyBookkeeping_frame now k false w
    (applySchedule now false { s with mode_stats := some (s.mode_stats.getD initialModeStats) })
  rw [hb1, hb2, hb3, hb4, hb6]
  obtain ⟨hs1, hs2, hs3, _, hs5, hs6⟩ := applySchedule_proj now false
    { s with mode_stats := some (s.mode_stats.getD initialModeStats) }
  rw [hs1, hs2, hs3, hs5, hs6]
  simp only [Bool.false_eq_true, if_false]
  have hst2 : Stats.state { s with mode_stats := some (s.mode_stats.getD initialModeStats) } =
      some "MASTERED" := hst
  obtain ⟨hf1, hf2, _, hf4, hf5⟩ := applyFail_fields now
    { s with mode_stats := some (s.mode_stats.getD initialModeStats) }
  rw [hf1, hf2, hf4, hf5, if_pos hst2, if_pos hst2]
  refine ⟨rfl, rfl, rfl, rfl, by simp, by simp [orZero]⟩

theorem mastered_due_fail_demotes_witness :
    isDueAt 0 sampleMastered.next_review_date = true ∧
    sampleMastered.state = some "MASTERED" ∧
    (calculateNextReviewStats 0 (some sampleMastered) "flip_zh" false (1/2)).state = some "LEARNING" ∧
    (calculateNextReviewStats 0 (some sampleMastered) "flip_zh" false (1/2)).demotions = some [7, 0] ∧
    (calculateNextReviewStats 0 (some sampleMastered) "flip_zh" false (1/2)).next_review_date =
      some 86400000 := by
  have h := mastered_due_fail_demotes 0 sampleMastered "flip_zh" (1/2) (by decide) rfl
  refine ⟨by decide, rfl, h.1, ?_, ?_⟩
  · rw [h.2.2.2.1]; rfl
  · rw [h.2.2.2.2.2]; rfl

/-- Claim C7 (confirmed): on a due PASS the new `interval_days` is the
ladder `[0,1,3,7,14,30]` read at position `min(i+1, 5)`, where `i` is the
input interval's position on the ladder, taken as 0 when the input is
absent or off-ladder (`specLadderPos`); in particular 30 stays 30 and an
off-ladder 5 self-heals to 1 without error. -/
theorem pass_interval_follows_ladder (now : Int) (s : Stats) (k : String) (w : ℚ)
    (hdue : isDueAt now s.next_review_date = true) :
    (calculateNextReviewStats now (some s) k true w).interval_days =
      some (INTERVAL_STEPS.getD (min (specLadderPos s.interval_days + 1) 5) 0) ∧
    (s.interval_days = some 30 →
      (calculateNextReviewStats now (some s) k true w).interval_days = some 30) ∧
    (s.interval_days = some 5 →
      (calculateNextReviewStats now (some s) k true w).interval_days = some 1) := by
  have hmain : (calculateNextReviewStats now (some s) k true w).interval_days =
      some (INTERVAL_STEPS.getD (min (specLadderPos s.interval_days + 1) 5) 0) := by
    rw [advance_due now s k true w hdue]
    obtain ⟨_, _, hb3, _, _, _⟩ := applyBookkeeping_frame now k true w
      (applySchedule now true { s with mode_stats := some (s.mode_stats.getD initialModeStats) })
    rw [hb3]
    obtain ⟨_, _, hs3, _, _, _⟩ := applySchedule_proj now true
      { s with mode_stats := some (s.mode_stats.getD initialModeStats) }
    rw [hs3]
    simp only [if_true]
    rw [applyPass_interval]
    rw [show orZero (Stats.interval_days
          { s with mode_stats := some (s.mode_stats.getD initialModeStats) }) =
        orZero s.interval_days from rfl]
    rw [ladderIndex_orZero_eq_specLadderPos]
  refine ⟨hmain, ?_, ?_⟩
  · intro h30
    rw [hmain, h30]
    rfl
  · intro h5
    rw [hmain, h5]
    rfl

theorem pass_interval_follows_ladder_witness :
    isDueAt 0 sampleOffLadder.next_review_date = true ∧
    sampleOffLadder.interval_days = some 5 ∧
    (calculateNextReviewStats 0 (some sampleOffLadder) "spelling" true 1).interval_days = some 1 :=
  ⟨by decide, rfl,
   (pass_interval_follows_ladder 0 sampleOffLadder "spelling" 1 (by decide)).2.2 rfl⟩


/-- Claim C8 (confirmed): the ladder set {0, 1, 3, 7, 14, 30} is an
invariant of `interval_days`: whatever the outcome, mode key, weight, and
due-ness, a record whose `interval_days` is a ladder value is mapped to a
record whose `interval_days` is again a ladder value. -/
theorem interval_ladder_invariant (now : Int) (s : Stats) (k : String) (c : Bool) (w : ℚ)
    (v : Int) (hv : s.interval_days = some v) (hmem : v ∈ INTERVAL_STEPS) :
    ∃ u, (calculateNextReviewStats now (some s) k c w).interval_days = some u ∧
      u ∈ INTERVAL_STEPS := by
  cases hdue : isDueAt now s.next_review_date with
  | false =>
    refine ⟨v, ?_, hmem⟩
    rw [advance_notDue now s k c w hdue]
    rw [(applyBookkeeping_frame now k c w
      { s with mode_stats := some (s.mode_stats.getD initialModeStats) }).2.2.1]
    exact hv
  | true =>
    rw [advance_due now s k c w hdue]
    rw [(applyBookkeeping_frame now k c w
      (applySchedule now c { s with mode_stats := some (s.mode_stats.getD initialModeStats) })).2.2.1]
    rw [(applySchedule_proj now c
      { s with mode_stats := some (s.mode_stats.getD initialModeStats) }).2.2.1]
    cases c with
    | false =>
      simp only [Bool.false_eq_true, if_false]
      exact ⟨1, (applyFail_fields now _).2.1, by decide⟩
    | true =>
      simp only [if_true]
      exact ⟨_, applyPass_interval now _, ladder_getD_mem _⟩

theorem interval_ladder_invariant_witness :
    sampleCeiling.interval_days = some 30 ∧ (30 : Int) ∈ INTERVAL_STEPS ∧
    (∃ u, (calculateNextReviewStats 0 (some sampleCeiling) "spelling" true 1).interval_days = some u ∧
      u ∈ INTERVAL_STEPS) :=
  ⟨rfl, by decide, interval_ladder_invariant 0 sampleCeiling "spelling" true 1 30 rfl (by decide)⟩

/-- Claim C9 (confirmed): a mode key with no entry in `mode_stats` is
tolerated: the engine (a total function here, so no exception) leaves the
`mode_stats` map entirely unchanged — in particular no counter is created
or bumped for that key — while `total_attempts` still grows by the
weight. -/
theorem unknown_mode_key_tolerated (now : Int) (s : Stats) (k : String) (c : Bool) (w : ℚ)
    (ms : List (String × ModeStat)) (hms : s.mode_stats = some ms)
    (hnone : lookupMode ms k = none) :
    (calculateNextReviewStats now (some s) k c w).mode_stats = some ms ∧
    (calculateNextReviewStats now (some s) k c w).total_attempts = s.total_attempts + w := by
  cases hdue : isDueAt now s.next_review_date with
  | false =>
    rw [advance_notDue now s k c w hdue, applyBookkeeping_eq]
    cases c <;> simp [hms, modeUpdate_of_lookup_none _ _ _ hnone]
  | true =>
    rw [advance_due now s k c w hdue, applyBookkeeping_eq]
    have hsched := applySchedule_frame now c
      { s with mode_stats := some (s.mode_stats.getD initialModeStats) }
    cases c <;>
      simp [hms, hsched.1, hsched.2.1, modeUpdate_of_lookup_none _ _ _ hnone] <;>
      simp [hms] at hsched <;>
      simp [hsched.1, hsched.2.1, modeUpdate_of_lookup_none _ _ _ hnone]

theorem unknown_mode_key_tolerated_witness :
    sampleSparseModes.mode_stats = some [("flip_en", ⟨2, 1⟩)] ∧
    lookupMode [("flip_en", ⟨2, 1⟩)] "spelling" = none ∧
    (calculateNextReviewStats 0 (some sampleSparseModes) "spelling" true 1).mode_stats =
      some [("flip_en", ⟨2, 1⟩)] ∧
    (calculateNextReviewStats 0 (some sampleSparseModes) "spelling" true 1).total_attempts =
      sampleSparseModes.total_attempts + 1 :=
  ⟨rfl, rfl,
   (unknown_mode_key_tolerated 0 sampleSparseModes "spelling" true 1 _ rfl rfl).1,
   (unknown_mode_key_tolerated 0 sampleSparseModes "spelling" true 1 _ rfl rfl).2⟩

/-- Claim C10 (confirmed): `mastered_at` is written only when a due PASS
newly promotes the card into MASTERED; in every other case — not due, any
FAIL (including the due FAIL that demotes a MASTERED card, stated
separately), or a PASS without a new promotion — the input's
`mastered_at` comes back unchanged, so a demoted card still carries the
timestamp of its last promotion. -/
theorem mastered_at_only_set_on_promotion (now : Int) (s : Stats) (k : String) (c : Bool) (w : ℚ) :
    ((calculateNextReviewStats now (some s) k c w).mastered_at = s.mastered_at ∨
      (c = true ∧ isDueAt now s.next_review_date = true ∧ s.state ≠ some "MASTERED" ∧
       (calculateNextReviewStats now (some s) k c w).state = some "MASTERED" ∧
       (calculateNextReviewStats now (some s) k c w).mastered_at = some now)) ∧
    (s.state = some "MASTERED" → isDueAt now s.next_review_date = true → c = false →
      (calculateNextReviewStats now (some s) k c w).mastered_at = s.mastered_at) := by
  cases hdue : isDueAt now s.next_review_date with
  | false =>
    constructor
    · left
      rw [advance_notDue now s k c w hdue]
      exact (applyBookkeeping_frame now k c w
        { s with mode_stats := some (s.mode_stats.getD initialModeStats) }).2.2.2.2.1
    · intro _ h2 _
      exact absurd h2 (by decide)
  | true =>
    have hmast : (calculateNextReviewStats now (some s) k c w).mastered_at =
        (if c then applyPass now { s with mode_stats := some (s.mode_stats.getD initialModeStats) }
         else applyFail now { s with mode_stats := some (s.mode_stats.getD initialModeStats) }).mastered_at := by
      rw [advance_due now s k c w hdue]
      rw [(applyBookkeeping_frame now k c w
        (applySchedule now c { s with mode_stats := some (s.mode_stats.getD initialModeStats) })).2.2.2.2.1]
      exact (applySchedule_frame now c
        { s with mode_stats := some (s.mode_stats.getD initialModeStats) }).2.2.2.2.2.2
    cases c with
    | false =>
      have hfail : (calculateNextReviewStats now (some s) k false w).mastered_at = s.mastered_at := by
        rw [hmast]
        simp only [Bool.false_eq_true, if_false]
        exact (applyFail_fields now _).2.2.1
      exact ⟨Or.inl hfail, fun _ _ _ => hfail⟩
    | true =>
      refine ⟨?_, fun _ _ h3 => absurd h3 (by decide)⟩
      simp only [eq_self_iff_true, if_true] at hmast
      by_cases hbar : orZero s.success_streak + 1 ≥ 3 ∧
          INTERVAL_STEPS.getD (min (ladderIndex (orZero s.interval_days) + 1) 5) 0 ≥ 14
      · by_cases hst : s.state = some "MASTERED"
        · left
          rw [hmast, (applyPass_promotes now { s with mode_stats := some (s.mode_stats.getD initialModeStats) } hbar.1 hbar.2).2]
          rw [if_pos hst]
        · right
          have hstate : (calculateNextReviewStats now (some s) k true w).state = some "MASTERED" := by
            rw [advance_due now s k true w hdue]
            rw [(applyBookkeeping_frame now k true w
              (applySchedule now true { s with mode_stats := some (s.mode_stats.getD initialModeStats) })).1]
            rw [(applySchedule_proj now true
              { s with mode_stats := some (s.mode_stats.getD initialModeStats) }).1]
            simp only [eq_self_iff_true, if_true]
            exact (applyPass_promotes now { s with mode_stats := some (s.mode_stats.getD initialModeStats) } hbar.1 hbar.2).1
          refine ⟨rfl, rfl, hst, hstate, ?_⟩
          rw [hmast, (applyPass_promotes now { s with mode_stats := some (s.mode_stats.getD initialModeStats) } hbar.1 hbar.2).2]
          rw [if_neg hst]
      · left
        rw [hmast, (applyPass_no_promotion now { s with mode_stats := some (s.mode_stats.getD initialModeStats) } hbar).2]

theorem mastered_at_only_set_on_promotion_witness :
    sampleMastered.state = some "MASTERED" ∧
    isDueAt 0 sampleMastered.next_review_date = true ∧
    sampleMastered.mastered_at = some 99 ∧
    (calculateNextReviewStats 0 (some sampleMastered) "spelling" false 1).mastered_at = some 99 :=
  ⟨rfl, by decide, rfl,
   (mastered_at_only_set_on_promotion 0 sampleMastered "spelling" false 1).2 rfl (by decide) rfl⟩


end VocabSRS
